import Mathlib

/-!
Verification development for the grok2api-rs gateway core: the credential
entity and pool (src/services/token/models.rs, src/services/token/pool.rs),
the batch executor (src/services/grok/batch.rs), the batch task state machine
and registry interaction (src/core/batch_tasks.rs, src/api/v1/admin.rs), and
the scored rotation store (src/services/grok/imagine_nsfw.rs).

Shallow embedding conventions: Rust `i32`/`u16` become `Int`/`Nat` (no claim
here depends on wrap-around); `f64` timestamps and scores become `ℚ` (the
operations involved are subtraction, division by constants, `min`/`max` and
comparison, all order-exact); `chrono::Utc::now()` becomes an explicit `now`
argument threaded through each operation that stamps a time; `HashMap` becomes
an association list with unique keys maintained by an insert-or-update
operation; JSON payloads irrelevant to control flow are abstracted to
`String`; randomness (`SliceRandom::choose`) becomes an explicit `Nat` draw
reduced modulo the candidate count; async mutation becomes explicit state
passing.
-/

namespace Grok2Api

/-! ## Credential entity — src/services/token/models.rs -/

inductive TokenStatus where
  | active
  | disabled
  | expired
  | cooling
deriving DecidableEq

inductive EffortType where
  | low
  | high
deriving DecidableEq

def effort_cost : EffortType → Int
  | .low => 1
  | .high => 4

def DEFAULT_QUOTA : Int := 80

def FAIL_THRESHOLD : Int := 5

structure TokenInfo where
  token : String
  status : TokenStatus
  quota : Int
  created_at : Int
  last_used_at : Option Int
  use_count : Int
  fail_count : Int
  last_fail_at : Option Int
  last_fail_reason : Option String
  last_sync_at : Option Int
  tags : List String
  note : String
  last_asset_clear_at : Option Int
deriving DecidableEq

def TokenInfo.new (token : String) (now : Int) : TokenInfo :=
  { token := token
    status := .active
    quota := DEFAULT_QUOTA
    created_at := now
    last_used_at := none
    use_count := 0
    fail_count := 0
    last_fail_at := none
    last_fail_reason := none
    last_sync_at := none
    tags := []
    note := ""
    last_asset_clear_at := none }

def TokenInfo.is_available (t : TokenInfo) : Bool :=
  t.status == .active && decide (0 < t.quota)

/-- Shared Cooling/Active resolution used by `consume` and `update_quota`:
if quota is 0 the status becomes Cooling; else a Cooling or Expired status
returns to Active; any other status is kept. -/
def resolveStatus (quota : Int) (status : TokenStatus) : TokenStatus :=
  if quota = 0 then .cooling
  else if status = .cooling ∨ status = .expired then .active
  else status

def TokenInfo.consume (t : TokenInfo) (effort : EffortType) (now : Int) :
    TokenInfo × Int :=
  let cost := effort_cost effort
  let actual := min cost t.quota
  let quota := max (t.quota - actual) 0
  ({ t with
      last_used_at := some now
      use_count := t.use_count + actual
      quota := quota
      fail_count := 0
      last_fail_reason := none
      status := resolveStatus quota t.status }, actual)

def TokenInfo.update_quota (t : TokenInfo) (new_quota : Int) : TokenInfo :=
  let quota := max new_quota 0
  { t with quota := quota, status := resolveStatus quota t.status }

def TokenInfo.reset (t : TokenInfo) : TokenInfo :=
  { t with
      quota := DEFAULT_QUOTA
      status := .active
      fail_count := 0
      last_fail_reason := none }

def TokenInfo.record_fail (t : TokenInfo) (status_code : Nat) (reason : String)
    (now : Int) : TokenInfo :=
  if status_code ≠ 401 then t
  else
    let fc := t.fail_count + 1
    { t with
        fail_count := fc
        last_fail_at := some now
        last_fail_reason := some reason
        status := if fc ≥ FAIL_THRESHOLD then .expired else t.status }

def TokenInfo.record_success (t : TokenInfo) (is_usage : Bool) (now : Int) :
    TokenInfo :=
  let t := { t with
      fail_count := 0
      last_fail_at := none
      last_fail_reason := none }
  let t := if is_usage then
      { t with use_count := t.use_count + 1, last_used_at := some now }
    else t
  { t with status := if t.quota = 0 then .cooling else .active }

/-- One step of the quota-touching call sequence of claim C7: either a
`consume` (with its effort and timestamp) or an `update_quota` with an
arbitrary, possibly negative, argument. -/
inductive QuotaOp where
  | consumeOp (effort : EffortType) (now : Int)
  | updateQuotaOp (new_quota : Int)
deriving DecidableEq

def applyQuotaOp (t : TokenInfo) : QuotaOp → TokenInfo
  | .consumeOp effort now => (t.consume effort now).1
  | .updateQuotaOp q => t.update_quota q

def applyQuotaOps (t : TokenInfo) (ops : List QuotaOp) : TokenInfo :=
  ops.foldl applyQuotaOp t

/-! ## Credential pool — src/services/token/pool.rs -/

structure TokenPool where
  name : String
  tokens : List TokenInfo

/-- Eligible candidates of `select`: status Active and positive quota. -/
def TokenPool.eligible (p : TokenPool) : List TokenInfo :=
  p.tokens.filter (fun t => t.status == .active && decide (0 < t.quota))

/-- Embeds `Iterator::max` over a list of quotas: none iff empty, else the maximum. -/
def listMax? : List Int → Option Int
  | [] => none
  | x :: xs =>
    match listMax? xs with
    | none => some x
    | some m => some (max x m)

/-- Embeds `select` with the random draw made explicit: `r` models the value the
thread-local RNG feeds to `SliceRandom::choose`, reduced modulo the number of
maximum-quota candidates. -/
def TokenPool.select (p : TokenPool) (r : Nat) : Option TokenInfo :=
  let available := p.eligible
  if available.isEmpty then none
  else
    let max_quota := (listMax? (available.map (·.quota))).getD 0
    let best := available.filter (fun t => t.quota == max_quota)
    best[r % best.length]?

/-! ## Batch executor — src/services/grok/batch.rs

`run_in_batches` partitions the items into consecutive chunks of
`batch_size` (clamped to at least 1), consults the cancellation predicate
before each chunk, runs the chunk's workers, and inserts each item's result
into a `HashMap` keyed by the item string.  The map is modelled as an
association list with `HashMap::insert` semantics (`hmInsert`); the
cancellation predicate, a stateful closure in the source, is modelled as a
function of the index of the chunk about to start; the worker is a function
`String → Except String T`; the semaphore bounds scheduling only and does not
affect the returned map, so it is not part of the result model. -/

/-- Embeds `HashMap::insert`: replace the entry with the same key, else append. -/
def hmInsert {T : Type} (key : String) (v : T) :
    List (String × T) → List (String × T)
  | [] => [(key, v)]
  | (k, w) :: rest =>
    if k = key then (k, v) :: rest else (k, w) :: hmInsert key v rest

/-- Fuel-driven worker for `chunksOf`; the fuel is always at least the list
length at every call, so the 0-fuel branch is unreachable. -/
def chunksOfF {α : Type} (n : Nat) : Nat → List α → List (List α)
  | _, [] => []
  | 0, _ :: _ => []
  | fuel + 1, x :: xs =>
    (x :: xs).take (max n 1) :: chunksOfF n fuel ((x :: xs).drop (max n 1))

/-- Embeds `slice::chunks n` (with `n ≥ 1` enforced by the caller's clamp):
consecutive chunks of `max n 1` elements. -/
def chunksOf {α : Type} (n : Nat) (l : List α) : List (List α) :=
  chunksOfF n l.length l

/-- One chunk: every item is launched, awaited in chunk order, and its result
inserted into the accumulated map (the per-item callback does not touch the
map). -/
def runChunk {T : Type} (worker : String → Except String T)
    (chunk : List String) (acc : List (String × Except String T)) :
    List (String × Except String T) :=
  chunk.foldl (fun m item => hmInsert item (worker item) m) acc

def runBatchesGo {T : Type} (worker : String → Except String T)
    (should_cancel : Nat → Bool) :
    List (List String) → Nat → List (String × Except String T) →
    List (String × Except String T)
  | [], _, acc => acc
  | chunk :: rest, i, acc =>
    if should_cancel i then acc
    else runBatchesGo worker should_cancel rest (i + 1) (runChunk worker chunk acc)

def run_in_batches {T : Type} (items : List String)
    (worker : String → Except String T) (max_concurrent : Nat)
    (batch_size : Nat) (should_cancel : Option (Nat → Bool)) :
    List (String × Except String T) :=
  let _ := max max_concurrent 1
  let batch_size := max batch_size 1
  runBatchesGo worker (fun i => (should_cancel.map (· i)).getD false)
    (chunksOf batch_size items) 0 []

/-! ## Batch task — src/core/batch_tasks.rs -/

/-- An event published to subscribers.  The source builds JSON objects; the
fields each event kind carries are modelled directly, with the `result`
payload abstracted to a string. -/
structure TaskEvent where
  etype : String
  task_id : String
  total : Nat
  processed : Nat
  ok : Nat
  fail : Nat
  item : Option String
  detail : Option String
  warning : Option String
  error : Option String
  result : Option String
deriving DecidableEq

/-- A subscriber channel (`mpsc::channel(200)` sender side): it accepts a
message when it is still open and its buffer is below capacity. -/
structure Subscriber where
  closed : Bool
  buf : List TaskEvent
deriving DecidableEq

def Subscriber.trySend (s : Subscriber) (e : TaskEvent) : Option Subscriber :=
  if ¬s.closed ∧ s.buf.length < 200 then some { s with buf := s.buf ++ [e] }
  else none

structure BatchTask where
  id : String
  total : Nat
  processed : Nat
  ok : Nat
  fail : Nat
  status : String
  warning : Option String
  result : Option String
  error : Option String
  created_at : Int
  cancelled : Bool
  final_event : Option TaskEvent
  queues : List Subscriber
deriving DecidableEq

def BatchTask.new (id : String) (total : Nat) (now : Int) : BatchTask :=
  { id := id
    total := total
    processed := 0
    ok := 0
    fail := 0
    status := "running"
    warning := none
    result := none
    error := none
    created_at := now
    cancelled := false
    final_event := none
    queues := [] }

/-- Embeds `publish`: best-effort fan-out; a subscriber whose `try_send` fails is
dropped from the subscriber list. -/
def BatchTask.publish (t : BatchTask) (e : TaskEvent) : BatchTask :=
  { t with queues := t.queues.filterMap (fun s => s.trySend e) }

def baseEvent (etype : String) (t : BatchTask) : TaskEvent :=
  { etype := etype
    task_id := t.id
    total := t.total
    processed := t.processed
    ok := t.ok
    fail := t.fail
    item := none
    detail := none
    warning := none
    error := none
    result := none }

def BatchTask.record (t : BatchTask) (ok : Bool) (item : Option String)
    (detail : Option String) (error : Option String) : BatchTask :=
  let t := { t with
      processed := t.processed + 1
      ok := if ok then t.ok + 1 else t.ok
      fail := if ok then t.fail else t.fail + 1 }
  let event := { baseEvent "progress" t with
      item := item, detail := detail, error := error }
  t.publish event

def BatchTask.finish (t : BatchTask) (result : String)
    (warning : Option String) : BatchTask :=
  let t := { t with
      status := "done"
      result := some result
      warning := warning }
  let event := { baseEvent "done" t with
      warning := warning, result := some result }
  let t := { t with final_event := some event }
  t.publish event

def BatchTask.fail_task (t : BatchTask) (error : String) : BatchTask :=
  let t := { t with status := "error", error := some error }
  let event := { baseEvent "error" t with error := some error }
  let t := { t with final_event := some event }
  t.publish event

def BatchTask.cancel (t : BatchTask) : BatchTask :=
  { t with cancelled := true }

def BatchTask.finish_cancelled (t : BatchTask) : BatchTask :=
  let t := { t with status := "cancelled" }
  let event := baseEvent "cancelled" t
  let t := { t with final_event := some event }
  t.publish event

/-- The three terminal status strings. -/
def terminalStatus (s : String) : Prop :=
  s = "done" ∨ s = "error" ∨ s = "cancelled"

instance (s : String) : Decidable (terminalStatus s) := by
  unfold terminalStatus
  infer_instance

/-- The tail of every spawned batch body in src/api/v1/admin.rs (after
`run_in_batches` returns): if the task's cooperative `cancelled` flag is set,
call `finish_cancelled` and return — without spawning
`expire_task(task_id, 300)`; otherwise call `finish` and then spawn
`expire_task(task_id, 300)`.  The boolean of the pair records whether the
expire step was scheduled. -/
def batchBodyTail (task : BatchTask) (result : String)
    (warning : Option String) : BatchTask × Bool :=
  if task.cancelled then (task.finish_cancelled, false)
  else (task.finish result warning, true)

/-! ## Scored rotation store — src/services/grok/imagine_nsfw.rs

Timestamps (`now_secs`, seconds as `f64`) and scores become `ℚ`.  The usage
`HashMap<String, KeyUsage>` becomes an association list with unique keys
maintained by `usageUpdate`.  `key_hash` (a 12-hex-character SHA1 prefix, a
collision-tolerant identity) is an arbitrary function parameter `kh`:
everything proved below holds for every keying function. -/

def RESET_INTERVAL_SECS : ℚ := 86400

structure KeyUsage where
  count : Int
  last_used : ℚ
  first_used : ℚ
  failed : Bool
  age_verified : Int
deriving DecidableEq

/-- Embeds `KeyUsage::default()` — `first_used` is stamped with the current time. -/
def KeyUsage.dflt (now : ℚ) : KeyUsage :=
  { count := 0
    last_used := 0
    first_used := now
    failed := false
    age_verified := 0 }

structure RotationStateData where
  last_reset : ℚ
  current_index : Nat
  usage : List (String × KeyUsage)
deriving DecidableEq

def RotationStateData.dflt : RotationStateData :=
  { last_reset := 0, current_index := 0, usage := [] }

def usageLookup : List (String × KeyUsage) → String → Option KeyUsage
  | [], _ => none
  | (k, v) :: rest, key => if k = key then some v else usageLookup rest key

/-- Embeds `HashMap::entry(key).or_insert_with(default)` followed by applying the
caller's mutation `f` to that entry: update the (unique) entry with this key,
or append `f` of a fresh default when the key is absent. -/
def usageUpdate (key : String) (f : KeyUsage → KeyUsage) (now : ℚ) :
    List (String × KeyUsage) → List (String × KeyUsage)
  | [] => [(key, f (KeyUsage.dflt now))]
  | (k, v) :: rest =>
    if k = key then (k, f v) :: rest
    else (k, v) :: usageUpdate key f now rest

/-- Embeds `ensure_usage`: insert a default record when the fingerprint is new. -/
def ensureUsage (kh : String → String) (now : ℚ) (st : RotationStateData)
    (token : String) : RotationStateData :=
  { st with usage := usageUpdate (kh token) id now st.usage }

/-- Embeds `get_usage`: look the fingerprint up, falling back to a default. -/
def getUsage (kh : String → String) (now : ℚ) (st : RotationStateData)
    (token : String) : KeyUsage :=
  (usageLookup st.usage (kh token)).getD (KeyUsage.dflt now)

/-- Embeds `check_daily_reset`: initialize `last_reset` on first call; once more than
`RESET_INTERVAL_SECS` have elapsed, zero every `count`, clear every `failed`
flag, and stamp `last_reset`. -/
def checkDailyReset (now : ℚ) (st : RotationStateData) : RotationStateData :=
  if st.last_reset = 0 then { st with last_reset := now }
  else if now - st.last_reset < RESET_INTERVAL_SECS then st
  else
    { st with
        usage := st.usage.map (fun p => (p.1, { p.2 with count := 0, failed := false }))
        last_reset := now }

/-- Embeds `get_available_tokens`: tokens neither marked failed nor at/over the
daily limit. -/
def getAvailableTokens (kh : String → String) (now : ℚ) (tokens : List String)
    (st : RotationStateData) (daily_limit : Int) : List String :=
  tokens.filter (fun token =>
    let usage := getUsage kh now st token
    !usage.failed && decide (usage.count < daily_limit))

def timeFactor (now : ℚ) (usage : KeyUsage) : ℚ :=
  if usage.last_used = 0 then 10
  else min ((now - usage.last_used) / 60 * (1 / 10)) 10

def usageScore (daily_limit : Int) (now : ℚ) (usage : KeyUsage) : ℚ :=
  (max (daily_limit - usage.count) 0 : Int) * (1 + timeFactor now usage)

/-- The hybrid-scoring loop of `get_next_sso`: fold over the available list
keeping the best (strictly greater) score; `selected` starts at the first
available token and `best_score` at −1. -/
def pickBest (kh : String → String) (now : ℚ) (daily_limit : Int)
    (st : RotationStateData) :
    List String → ℚ → String → String
  | [], _, selected => selected
  | token :: rest, best_score, selected =>
    let s := usageScore daily_limit now (getUsage kh now st token)
    if s > best_score then pickBest kh now daily_limit st rest s token
    else pickBest kh now daily_limit st rest best_score selected

/-- The state of `get_next_sso` after the daily-reset check and the
`ensure_usage` pass over the input tokens. -/
def rotationPostState (kh : String → String) (now : ℚ) (tokens : List String)
    (st : RotationStateData) : RotationStateData :=
  tokens.foldl (ensureUsage kh now) (checkDailyReset now st)

/-- All input tokens are marked failed in the given state. -/
def allFailed (kh : String → String) (now : ℚ) (tokens : List String)
    (st : RotationStateData) : Bool :=
  tokens.all (fun t => (getUsage kh now st t).failed)

/-- Clearing one token's `failed` flag (one step of the self-heal loop). -/
def clearFailedOne (kh : String → String) (now : ℚ) (st : RotationStateData)
    (token : String) : RotationStateData :=
  { st with
      usage := usageUpdate (kh token) (fun u => { u with failed := false })
        now st.usage }

/-- Clearing the `failed` flag of every input token (the self-heal path). -/
def clearAllFailed (kh : String → String) (now : ℚ) (tokens : List String)
    (st : RotationStateData) : RotationStateData :=
  tokens.foldl (clearFailedOne kh now) st

/-- Embeds `get_next_sso tokens daily_limit` over an explicit state, returning the
selected token (if any) and the successor state. -/
def getNextSso (kh : String → String) (now : ℚ) (tokens : List String)
    (daily_limit : Int) (st : RotationStateData) :
    Option String × RotationStateData :=
  let st := rotationPostState kh now tokens st
  let available := getAvailableTokens kh now tokens st daily_limit
  match available with
  | [] =>
    if allFailed kh now tokens st then
      (tokens.head?, clearAllFailed kh now tokens st)
    else (none, st)
  | a0 :: _ =>
    (some (pickBest kh now daily_limit st available (-1) a0), st)

/-- Embeds `record_usage`: increment `count` and stamp `last_used`. -/
def recordUsage (kh : String → String) (now : ℚ) (token : String)
    (st : RotationStateData) : RotationStateData :=
  { st with
      usage := usageUpdate (kh token)
        (fun u => { u with count := u.count + 1, last_used := now }) now st.usage }

/-! ## Concrete instances used by counterexamples and witnesses -/

/-- A fresh credential with its quota overridden. -/
def tokQ (q : Int) : TokenInfo :=
  { TokenInfo.new "tok" 0 with quota := q }

/-- Runs `n` consecutive `record_fail` calls with the same code and reason. -/
def iterateRecordFail (n : Nat) (code : Nat) (reason : String) (now : Int)
    (t : TokenInfo) : TokenInfo :=
  match n with
  | 0 => t
  | n + 1 => iterateRecordFail n code reason now (t.record_fail code reason now)

/-- A pool of three Active credentials with quotas 5, 5, 2. -/
def demoPool : TokenPool :=
  { name := "demo"
    tokens := [ { TokenInfo.new "a" 0 with quota := 5 },
                { TokenInfo.new "b" 0 with quota := 5 },
                { TokenInfo.new "c" 0 with quota := 2 } ] }

def demoTask : BatchTask := BatchTask.new "t" 3 0

/-- A batch task whose cancel endpoint was hit during the run. -/
def cancelledDemoTask : BatchTask := demoTask.cancel

def items10 : List String :=
  ["t0", "t1", "t2", "t3", "t4", "t5", "t6", "t7", "t8", "t9"]

/-- A rotation state whose single token is at its daily limit (not failed). -/
def stuckState : RotationStateData :=
  { last_reset := 5
    current_index := 0
    usage := [("a", { count := 2, last_used := 0, first_used := 0,
                      failed := false, age_verified := 0 })] }

/-- A rotation state whose single token is marked failed. -/
def failedState : RotationStateData :=
  { last_reset := 5
    current_index := 0
    usage := [("b", { count := 0, last_used := 0, first_used := 0,
                      failed := true, age_verified := 0 })] }

/-! ## Credential entity lemmas -/

theorem consume_quota (t : TokenInfo) (e : EffortType) (now : Int) :
    ((t.consume e now).1).quota = t.quota - min (effort_cost e) t.quota := by
  simp only [TokenInfo.consume]
  omega

theorem consume_status (t : TokenInfo) (e : EffortType) (now : Int) :
    ((t.consume e now).1).status =
      resolveStatus ((t.consume e now).1).quota t.status := rfl

theorem record_fail_401_fields (t : TokenInfo) (reason : String) (now : Int) :
    (t.record_fail 401 reason now).fail_count = t.fail_count + 1 ∧
    (t.record_fail 401 reason now).last_fail_at = some now ∧
    (t.record_fail 401 reason now).last_fail_reason = some reason := by
  simp [TokenInfo.record_fail]

theorem record_fail_401_expired (t : TokenInfo) (reason : String) (now : Int)
    (h : t.fail_count + 1 ≥ FAIL_THRESHOLD) :
    (t.record_fail 401 reason now).status = .expired := by
  simp only [TokenInfo.record_fail, if_neg (by decide : ¬(401 : Nat) ≠ 401)]
  simp [if_pos h]

theorem record_fail_401_fail_count_eq (t : TokenInfo) (reason : String)
    (now : Int) :
    (t.record_fail 401 reason now).fail_count = t.fail_count + 1 :=
  (record_fail_401_fields t reason now).1

theorem applyQuotaOp_nonneg (t : TokenInfo) (op : QuotaOp) :
    0 ≤ (applyQuotaOp t op).quota := by
  cases op with
  | consumeOp e now =>
    simp only [applyQuotaOp, TokenInfo.consume]
    omega
  | updateQuotaOp q =>
    simp only [applyQuotaOp, TokenInfo.update_quota]
    omega

/-- C4: `consume` decrements quota by exactly `min(cost, quota)` with Low
cost 1 and High cost 4, and whenever the resulting quota is 0 the status
becomes Cooling. -/
theorem consume_clamped_cost_and_cooling (t : TokenInfo) (e : EffortType)
    (now : Int) :
    ((t.consume e now).1).quota = t.quota - min (effort_cost e) t.quota ∧
    (t.consume e now).2 = min (effort_cost e) t.quota ∧
    effort_cost .low = 1 ∧ effort_cost .high = 4 ∧
    (((t.consume e now).1).quota = 0 → ((t.consume e now).1).status = .cooling) := by
  refine ⟨consume_quota t e now, rfl, rfl, rfl, ?_⟩
  intro h0
  rw [consume_status t e now, h0]
  simp [resolveStatus]

/-- C4 witness: `consume(High)` on quota 2 decrements by 2, yielding quota 0
and status Cooling; `consume(Low)` on quota 1 yields quota 0 and Cooling. -/
theorem consume_clamped_cost_and_cooling_witness :
    (((tokQ 2).consume .high 0).1).quota = 0 ∧
    (((tokQ 2).consume .high 0).1).status = .cooling ∧
    ((tokQ 2).consume .high 0).2 = 2 ∧
    (((tokQ 1).consume .low 0).1).quota = 0 ∧
    (((tokQ 1).consume .low 0).1).status = .cooling := by
  have h2 := consume_clamped_cost_and_cooling (tokQ 2) .high 0
  have h1 := consume_clamped_cost_and_cooling (tokQ 1) .low 0
  refine ⟨?_, ?_, ?_, ?_, ?_⟩
  · rw [h2.1]; decide
  · exact h2.2.2.2.2 (by rw [h2.1]; decide)
  · rw [h2.2.1]; decide
  · rw [h1.1]; decide
  · exact h1.2.2.2.2 (by rw [h1.1]; decide)

/-- C5: `record_fail` with a non-401 code leaves the credential entirely
unchanged; with 401 it increments `fail_count`, stamps
`last_fail_at`/`last_fail_reason`, and sets status Expired once the count
reaches the threshold 5; five consecutive 401 failures on an Active
credential yield Expired. -/
theorem record_fail_semantics (t : TokenInfo) (code : Nat) (reason : String)
    (now : Int) :
    (code ≠ 401 → t.record_fail code reason now = t) ∧
    (t.record_fail 401 reason now).fail_count = t.fail_count + 1 ∧
    (t.record_fail 401 reason now).last_fail_at = some now ∧
    (t.record_fail 401 reason now).last_fail_reason = some reason ∧
    (t.fail_count + 1 ≥ FAIL_THRESHOLD →
      (t.record_fail 401 reason now).status = .expired) ∧
    (t.status = .active → 0 ≤ t.fail_count →
      (iterateRecordFail 5 401 reason now t).status = .expired) := by
  obtain ⟨hfc, hat, hreason⟩ := record_fail_401_fields t reason now
  refine ⟨?_, hfc, hat, hreason, record_fail_401_expired t reason now, ?_⟩
  · intro hne
    simp [TokenInfo.record_fail, hne]
  · intro _ hnn
    set t1 := t.record_fail 401 reason now with ht1
    set t2 := t1.record_fail 401 reason now with ht2
    set t3 := t2.record_fail 401 reason now with ht3
    set t4 := t3.record_fail 401 reason now with ht4
    have e1 := record_fail_401_fail_count_eq t reason now
    have e2 := record_fail_401_fail_count_eq t1 reason now
    have e3 := record_fail_401_fail_count_eq t2 reason now
    have e4 := record_fail_401_fail_count_eq t3 reason now
    have hfinal : (iterateRecordFail 5 401 reason now t) =
        t4.record_fail 401 reason now := by
      simp [iterateRecordFail, ht1, ht2, ht3, ht4]
    rw [hfinal]
    apply record_fail_401_expired
    rw [FAIL_THRESHOLD]
    rw [e4, e3, e2, e1] at *
    omega

/-- C5 witness: five consecutive 401 failures on a fresh Active credential
yield Expired, and a 500 failure leaves the credential unchanged. -/
theorem record_fail_semantics_witness :
    (iterateRecordFail 5 401 "auth" 7 (TokenInfo.new "a" 0)).status = .expired ∧
    (TokenInfo.new "a" 0).record_fail 500 "boom" 7 = TokenInfo.new "a" 0 := by
  constructor
  · exact (record_fail_semantics (TokenInfo.new "a" 0) 500 "auth" 7).2.2.2.2.2
      rfl (by decide)
  · exact (record_fail_semantics (TokenInfo.new "a" 0) 500 "boom" 7).1
      (by decide)

/-- C7: quota stays non-negative under any finite sequence of `consume` and
`update_quota` calls, with arbitrary efforts and arbitrary (possibly
negative) new-quota arguments. -/
theorem quota_nonneg_invariant (t : TokenInfo) (ops : List QuotaOp)
    (h : 0 ≤ t.quota) : 0 ≤ (applyQuotaOps t ops).quota := by
  induction ops generalizing t with
  | nil => exact h
  | cons op rest ih =>
    simp only [applyQuotaOps, List.foldl_cons]
    exact ih (applyQuotaOp t op) (applyQuotaOp_nonneg t op)

/-- C7 witness: a concrete mixed sequence, including a negative
`update_quota` argument, keeps the quota non-negative. -/
theorem quota_nonneg_invariant_witness :
    0 ≤ (applyQuotaOps (tokQ 3)
      [.consumeOp .high 1, .updateQuotaOp (-7), .consumeOp .low 2,
       .updateQuotaOp 5, .consumeOp .high 3]).quota :=
  quota_nonneg_invariant (tokQ 3) _ (by decide)

/-- C9: `reset` always yields quota `DEFAULT_QUOTA` (= 80), status Active
and `fail_count` 0, and is idempotent. -/
theorem reset_idempotent (t : TokenInfo) :
    t.reset.quota = DEFAULT_QUOTA ∧ DEFAULT_QUOTA = 80 ∧
    t.reset.status = .active ∧ t.reset.fail_count = 0 ∧
    t.reset.reset = t.reset := by
  refine ⟨rfl, rfl, rfl, rfl, rfl⟩

/-- C10: quota-touching operations do not preserve Disabled — on a Disabled
credential, `record_success` resolves the status to Active (quota > 0) or
Cooling (quota = 0), and `update_quota` resolving to quota 0 sets Cooling. -/
theorem disabled_not_preserved (t : TokenInfo) (b : Bool) (now : Int) (q : Int)
    (h : t.status = .disabled) :
    (0 < t.quota → (t.record_success b now).status = .active) ∧
    (t.quota = 0 → (t.record_success b now).status = .cooling) ∧
    ((t.update_quota q).quota = 0 → (t.update_quota q).status = .cooling) := by
  refine ⟨?_, ?_, ?_⟩
  · intro hq
    have hne : ¬t.quota = 0 := by omega
    cases b <;> simp [TokenInfo.record_success, hne]
  · intro hq
    cases b <;> simp [TokenInfo.record_success, hq]
  · intro hq
    have : (t.update_quota q).status = resolveStatus ((t.update_quota q).quota)
        t.status := rfl
    rw [this, hq]
    simp [resolveStatus]

/-- C10 witness: a Disabled credential with quota 5 becomes Active on
`record_success`, with quota 0 becomes Cooling, and `update_quota(-1)`
yields quota 0 and Cooling. -/
theorem disabled_not_preserved_witness :
    ((({ tokQ 5 with status := .disabled }).record_success true 0).status
      = .active) ∧
    ((({ tokQ 0 with status := .disabled }).record_success true 0).status
      = .cooling) ∧
    ((({ tokQ 5 with status := .disabled }).update_quota (-1)).status
      = .cooling) := by
  refine ⟨?_, ?_, ?_⟩
  · exact (disabled_not_preserved { tokQ 5 with status := .disabled }
      true 0 (-1) rfl).1 (by decide)
  · exact (disabled_not_preserved { tokQ 0 with status := .disabled }
      true 0 (-1) rfl).2.1 (by decide)
  · exact (disabled_not_preserved { tokQ 5 with status := .disabled }
      true 0 (-1) rfl).2.2 (by decide)

/-! ## Batch task theorems -/

/-- C1 counterexample: the claim "once a task's status is terminal, no
subsequent operation changes the status to a different value" is false at a
concrete input — after `finish` the status is the terminal "done", yet a
subsequent `fail_task` changes it to "error". -/
theorem terminal_no_exit_counterexample :
    terminalStatus (demoTask.finish "r" none).status ∧
    ((demoTask.finish "r" none).fail_task "boom").status ≠
      (demoTask.finish "r" none).status := by
  constructor
  · left; rfl
  · decide

/-- C1 amended: `record` and `cancel` never change the status, while
`finish`, `fail_task` and `finish_cancelled` overwrite the status
unconditionally with "done", "error" and "cancelled" respectively — there is
no guard, so a terminal status is left only when a different terminal
operation is invoked afterwards. -/
theorem terminal_transitions_amended (t : BatchTask) (ok : Bool)
    (item detail err : Option String) (res : String) (w : Option String)
    (e : String) :
    (t.record ok item detail err).status = t.status ∧
    t.cancel.status = t.status ∧
    (t.finish res w).status = "done" ∧
    (t.fail_task e).status = "error" ∧
    t.finish_cancelled.status = "cancelled" :=
  ⟨rfl, rfl, rfl, rfl, rfl⟩

/-- C2 (code bug): in the spawned batch body, the cancelled path performs the
terminal `finish_cancelled` transition but returns before spawning
`expire_task(task_id, 300)` — so a cancelled task is never removed from the
registry, while the non-cancelled `finish` path does schedule the expire
step. -/
theorem cancelled_task_never_expired :
    (batchBodyTail cancelledDemoTask "r" none).2 = false ∧
    terminalStatus (batchBodyTail cancelledDemoTask "r" none).1.status ∧
    (batchBodyTail cancelledDemoTask "r" none).1.status = "cancelled" ∧
    (batchBodyTail demoTask "r" none).2 = true ∧
    (batchBodyTail demoTask "r" none).1.status = "done" := by
  refine ⟨rfl, ?_, rfl, rfl, rfl⟩
  right; right; rfl

/-! ## Batch executor lemmas -/

theorem hmInsert_fresh {T : Type} (key : String) (v : T)
    (acc : List (String × T)) (h : key ∉ acc.map Prod.fst) :
    hmInsert key v acc = acc ++ [(key, v)] := by
  induction acc with
  | nil => rfl
  | cons p rest ih =>
    obtain ⟨k, w⟩ := p
    simp only [List.map_cons, List.mem_cons] at h
    push_neg at h
    simp only [hmInsert]
    rw [if_neg (fun hk => h.1 hk.symm)]
    simp [ih h.2]

theorem runChunk_fresh {T : Type} (worker : String → Except String T)
    (chunk : List String) (acc : List (String × Except String T))
    (hnd : chunk.Nodup) (hfresh : ∀ x ∈ chunk, x ∉ acc.map Prod.fst) :
    runChunk worker chunk acc =
      acc ++ chunk.map (fun it => (it, worker it)) := by
  induction chunk generalizing acc with
  | nil => simp [runChunk]
  | cons x xs ih =>
    have hx : x ∉ acc.map Prod.fst := hfresh x (by simp)
    have hnd' := List.nodup_cons.mp hnd
    simp only [runChunk, List.foldl_cons] at *
    rw [hmInsert_fresh x (worker x) acc hx]
    rw [ih (acc ++ [(x, worker x)]) hnd'.2 ?fresh]
    · simp
    case fresh =>
      intro y hy
      simp only [List.map_append, List.mem_append, List.map_cons,
        List.map_nil, List.mem_singleton]
      push_neg
      refine ⟨hfresh y (by simp [hy]), ?_⟩
      intro hyx
      exact hnd'.1 (hyx ▸ hy)

theorem chunksOfF_congr {α : Type} (n : Nat) :
    ∀ (f1 : Nat) (l : List α) (f2 : Nat), l.length ≤ f1 → l.length ≤ f2 →
      chunksOfF n f1 l = chunksOfF n f2 l := by
  intro f1
  induction f1 with
  | zero =>
    intro l f2 h1 _
    have hl : l = [] := List.eq_nil_of_length_eq_zero (Nat.le_zero.mp h1)
    subst hl
    cases f2 <;> rfl
  | succ f ih =>
    intro l f2 h1 h2
    match l with
    | [] => cases f2 <;> rfl
    | x :: xs =>
      match f2 with
      | 0 => exact absurd h2 (by simp)
      | g + 1 =>
        simp only [chunksOfF]
        congr 1
        have hd : ((x :: xs).drop (max n 1)).length ≤ xs.length := by
          simp only [List.length_drop, List.length_cons]
          omega
        simp only [List.length_cons] at h1 h2
        exact ih _ g (by omega) (by omega)

theorem chunksOf_cons {α : Type} (n : Nat) (x : α) (xs : List α) :
    chunksOf n (x :: xs) =
      (x :: xs).take (max n 1) :: chunksOf n ((x :: xs).drop (max n 1)) := by
  show chunksOfF n (x :: xs).length (x :: xs) = _
  simp only [List.length_cons, chunksOfF]
  congr 1
  exact chunksOfF_congr n xs.length _ _
    (by simp only [List.length_drop, List.length_cons]; omega) le_rfl

theorem chunksOf_flatten {α : Type} (n : Nat) (l : List α) :
    (chunksOf n l).flatten = l := by
  suffices h : ∀ (fuel : Nat) (m : List α), m.length ≤ fuel →
      (chunksOfF n fuel m).flatten = m from h l.length l le_rfl
  intro fuel
  induction fuel with
  | zero =>
    intro m hm
    have hl : m = [] := List.eq_nil_of_length_eq_zero (Nat.le_zero.mp hm)
    subst hl
    rfl
  | succ f ih =>
    intro m hm
    match m with
    | [] => rfl
    | x :: xs =>
      simp only [chunksOfF, List.flatten_cons]
      rw [ih _ (by simp only [List.length_drop, List.length_cons] at *; omega)]
      exact List.take_append_drop _ _

theorem runBatchesGo_stop {T : Type} (worker : String → Except String T)
    (cancel : Nat → Bool) (cs : List (List String)) (i : Nat)
    (acc : List (String × Except String T)) (h : cancel i = true) :
    runBatchesGo worker cancel cs i acc = acc := by
  cases cs with
  | nil => rfl
  | cons c rest => simp [runBatchesGo, h]

theorem runBatchesGo_cons_false {T : Type} (worker : String → Except String T)
    (cancel : Nat → Bool) (c : List String) (cs : List (List String)) (i : Nat)
    (acc : List (String × Except String T)) (h : cancel i = false) :
    runBatchesGo worker cancel (c :: cs) i acc =
      runBatchesGo worker cancel cs (i + 1) (runChunk worker c acc) := by
  simp [runBatchesGo, h]

theorem runBatchesGo_no_cancel {T : Type} (worker : String → Except String T)
    (cancel : Nat → Bool) (hc : ∀ j, cancel j = false)
    (cs : List (List String)) :
    ∀ (i : Nat) (acc : List (String × Except String T)),
      cs.flatten.Nodup → (∀ x ∈ cs.flatten, x ∉ acc.map Prod.fst) →
      runBatchesGo worker cancel cs i acc =
        acc ++ cs.flatten.map (fun it => (it, worker it)) := by
  induction cs with
  | nil =>
    intro i acc _ _
    simp [runBatchesGo]
  | cons chunk rest ih =>
    intro i acc hnd hfresh
    simp only [List.flatten_cons] at hnd hfresh
    have hparts := List.nodup_append.mp hnd
    rw [runBatchesGo_cons_false worker cancel chunk rest i acc (hc i)]
    rw [runChunk_fresh worker chunk acc hparts.1
      (fun x hx => hfresh x (List.mem_append_left _ hx))]
    rw [ih (i + 1) (acc ++ chunk.map (fun it => (it, worker it)))
      hparts.2.1 ?fresh]
    · simp [List.flatten_cons, List.map_append]
    case fresh =>
      intro y hy
      simp only [List.map_append, List.mem_append, List.map_map]
      push_neg
      constructor
      · exact hfresh y (List.mem_append_right _ hy)
      · have hdisj := hparts.2.2
        intro hyc
        simp only [List.mem_map, Function.comp] at hyc
        obtain ⟨z, hz, hzy⟩ := hyc
        exact hdisj (hzy ▸ hz) hy

/-- C3 counterexample: the coverage claim is stated for every input item
list, but the result map is keyed by item — 10 duplicate items yield a
single entry, not 10. -/
theorem run_in_batches_counterexample :
    (List.replicate 10 "a").length = 10 ∧
    (run_in_batches (List.replicate 10 "a")
      (fun _ => (Except.ok 0 : Except String Nat)) 2 5 none).length = 1 ∧
    (1 : Nat) ≠ 10 := by
  refine ⟨by decide, by decide, by decide⟩

/-- C3 amended: for a list of *distinct* items, when the cancellation
predicate never fires (or is absent) `run_in_batches` returns exactly one
entry per input item (each item mapped to its worker result); and when the
predicate first fires before the second chunk with `chunkSize = 5`, the
returned map holds exactly the entries of the first chunk (the first
min(5, length) items). -/
theorem run_in_batches_coverage {T : Type} (items : List String)
    (worker : String → Except String T) (mc bs : Nat) (cancel : Nat → Bool)
    (hnd : items.Nodup) :
    ((∀ i, cancel i = false) →
      run_in_batches items worker mc bs (some cancel) =
        items.map (fun it => (it, worker it))) ∧
    (run_in_batches items worker mc bs none =
      items.map (fun it => (it, worker it))) ∧
    (cancel 0 = false → cancel 1 = true →
      run_in_batches items worker mc 5 (some cancel) =
        (items.take 5).map (fun it => (it, worker it))) := by
  have hflat : (chunksOf (max bs 1) items).flatten = items := chunksOf_flatten _ _
  refine ⟨?_, ?_, ?_⟩
  · intro hc
    show runBatchesGo worker _ (chunksOf (max bs 1) items) 0 [] = _
    rw [runBatchesGo_no_cancel worker _ (fun j => by simp [hc j]) _ 0 []
      (by rw [hflat]; exact hnd) (by simp), hflat]
    simp
  · show runBatchesGo worker _ (chunksOf (max bs 1) items) 0 [] = _
    rw [runBatchesGo_no_cancel worker _ (fun j => by simp) _ 0 []
      (by rw [hflat]; exact hnd) (by simp), hflat]
    simp
  · intro hc0 hc1
    match items, hnd with
    | [], _ => rfl
    | x :: xs, hnd =>
      show runBatchesGo worker _ (chunksOf (max 5 1) (x :: xs)) 0 [] = _
      rw [chunksOf_cons]
      rw [runBatchesGo_cons_false worker _ _ _ 0 [] hc0]
      rw [runChunk_fresh worker _ []
        (List.Nodup.sublist (List.take_sublist _ _) hnd) (by simp)]
      rw [runBatchesGo_stop worker _ _ 1 _ hc1]
      simp

/-- C3 witness: 10 distinct items yield exactly 10 entries without
cancellation, and cancelling from chunk index 1 on with `chunkSize = 5`
yields exactly the 5 entries of the first chunk. -/
theorem run_in_batches_coverage_witness :
    run_in_batches items10 (fun s => (Except.ok s : Except String String))
      2 5 none = items10.map (fun it => (it, Except.ok it)) ∧
    (run_in_batches items10 (fun s => (Except.ok s : Except String String))
      2 5 none).length = 10 ∧
    run_in_batches items10 (fun s => (Except.ok s : Except String String))
      2 5 (some (fun i => decide (1 ≤ i))) =
      (items10.take 5).map (fun it => (it, Except.ok it)) ∧
    ((items10.take 5).map
      (fun it => ((it : String), (Except.ok it : Except String String)))).length
      = 5 := by
  have h := run_in_batches_coverage items10
    (fun s => (Except.ok s : Except String String)) 2 5
    (fun i => decide (1 ≤ i)) (by decide)
  refine ⟨h.2.1, ?_, h.2.2 (by decide) (by decide), by decide⟩
  rw [h.2.1]
  decide

/-! ## Pool selection lemmas -/

theorem listMax?_eq_none {l : List Int} : listMax? l = none ↔ l = [] := by
  cases l with
  | nil => simp [listMax?]
  | cons x xs =>
    simp only [listMax?]
    cases listMax? xs <;> simp

theorem listMax?_cons_exists (x : Int) (xs : List Int) :
    ∃ m, listMax? (x :: xs) = some m := by
  simp only [listMax?]
  cases listMax? xs with
  | none => exact ⟨x, rfl⟩
  | some mm => exact ⟨max x mm, rfl⟩

theorem listMax?_le {l : List Int} :
    ∀ {m : Int}, listMax? l = some m → ∀ x ∈ l, x ≤ m := by
  induction l with
  | nil =>
    intro m _ x hx
    cases hx
  | cons a rest ih =>
    intro m h x hx
    simp only [listMax?] at h
    rcases List.mem_cons.mp hx with hxa | hxr
    · subst hxa
      cases hrest : listMax? rest with
      | none =>
        rw [hrest] at h
        simp only [Option.some_inj] at h
        omega
      | some mr =>
        rw [hrest] at h
        simp only [Option.some_inj] at h
        omega
    · cases hrest : listMax? rest with
      | none =>
        rw [listMax?_eq_none.mp hrest] at hxr
        cases hxr
      | some mr =>
        rw [hrest] at h
        simp only [Option.some_inj] at h
        have := ih hrest x hxr
        omega

theorem listMax?_mem {l : List Int} :
    ∀ {m : Int}, listMax? l = some m → m ∈ l := by
  induction l with
  | nil =>
    intro m h
    cases h
  | cons a rest ih =>
    intro m h
    simp only [listMax?] at h
    cases hrest : listMax? rest with
    | none =>
      rw [hrest] at h
      simp only [Option.some_inj] at h
      simp [← h]
    | some mr =>
      rw [hrest] at h
      simp only [Option.some_inj] at h
      rcases max_choice a mr with hc | hc
      · rw [← h, hc]
        exact List.mem_cons_self a rest
      · rw [← h, hc]
        exact List.mem_cons_of_mem a (ih hrest)

theorem select_eq_none_iff (p : TokenPool) (r : Nat) :
    p.select r = none ↔ p.eligible = [] := by
  cases hE : p.eligible with
  | nil => simp [TokenPool.select, hE]
  | cons a l =>
    simp only [TokenPool.select, hE, List.isEmpty_cons, Bool.false_eq_true,
      if_false]
    constructor
    · intro hnone
      exfalso
      obtain ⟨m, hm⟩ : ∃ m, listMax? ((a :: l).map (·.quota)) = some m := by
        rw [List.map_cons]
        exact listMax?_cons_exists _ _
      rw [hm] at hnone
      obtain ⟨t, ht, htq⟩ := List.mem_map.mp (listMax?_mem hm)
      have htb : t ∈ (a :: l).filter (fun t => t.quota == (some m).getD 0) :=
        List.mem_filter.mpr ⟨ht, by simp [htq]⟩
      have hlen := List.length_pos.mpr (List.ne_nil_of_mem htb)
      have hlt := Nat.mod_lt r hlen
      rw [List.getElem?_eq_getElem hlt] at hnone
      cases hnone
    · intro h
      cases h

theorem select_some_spec (p : TokenPool) (r : Nat) (t : TokenInfo)
    (h : p.select r = some t) :
    t ∈ p.eligible ∧ t.status = .active ∧ 0 < t.quota ∧
      ∀ u ∈ p.eligible, u.quota ≤ t.quota := by
  cases hE : p.eligible with
  | nil => simp [TokenPool.select, hE] at h
  | cons a l =>
    simp only [TokenPool.select, hE, List.isEmpty_cons, Bool.false_eq_true,
      if_false] at h
    obtain ⟨m, hm⟩ : ∃ m, listMax? ((a :: l).map (·.quota)) = some m := by
      rw [List.map_cons]
      exact listMax?_cons_exists _ _
    rw [hm] at h
    obtain ⟨hlt, he⟩ := List.getElem?_eq_some.mp h
    have htb := he ▸ List.getElem_mem hlt
    obtain ⟨htav, htq⟩ := List.mem_filter.mp htb
    have htq' : t.quota = m := by simpa using htq
    have hstat : (t.status == TokenStatus.active && decide (0 < t.quota))
        = true := by
      have hmemf : t ∈ p.tokens.filter
          (fun t => t.status == .active && decide (0 < t.quota)) := by
        rw [show p.tokens.filter
            (fun t => t.status == .active && decide (0 < t.quota))
          = p.eligible from rfl, hE]
        exact htav
      exact (List.mem_filter.mp hmemf).2
    simp only [Bool.and_eq_true, beq_iff_eq, decide_eq_true_eq] at hstat
    refine ⟨htav, hstat.1, hstat.2, ?_⟩
    intro u hu
    rw [htq']
    exact listMax?_le hm u.quota (List.mem_map.mpr ⟨u, hu, rfl⟩)

/-- C6: `select` returns nothing exactly when no credential is Active with
positive quota; a returned credential is an eligible one of maximum quota;
over the {5, 5, 2} demo pool every returned token has quota 5, and both
maximum-quota tokens are returned for suitable random draws. -/
theorem select_max_quota (p : TokenPool) (r : Nat) :
    (p.select r = none ↔ p.eligible = []) ∧
    (∀ t, p.select r = some t →
      t ∈ p.eligible ∧ t.status = .active ∧ 0 < t.quota ∧
      ∀ u ∈ p.eligible, u.quota ≤ t.quota) ∧
    (∀ (s : Nat) (t : TokenInfo), demoPool.select s = some t → t.quota = 5) ∧
    demoPool.select 0 = some { TokenInfo.new "a" 0 with quota := 5 } ∧
    demoPool.select 1 = some { TokenInfo.new "b" 0 with quota := 5 } := by
  refine ⟨select_eq_none_iff p r, fun t => select_some_spec p r t, ?_, ?_, ?_⟩
  · intro s t hsel
    obtain ⟨hmem, _, _, hub⟩ := select_some_spec demoPool s t hsel
    have h5 : (5 : Int) ≤ t.quota := by
      refine hub { TokenInfo.new "a" 0 with quota := 5 } ?_
      decide
    have hcases : t.quota = 5 ∨ t.quota = 5 ∨ t.quota = 2 := by
      have he : demoPool.eligible =
          [ { TokenInfo.new "a" 0 with quota := 5 },
            { TokenInfo.new "b" 0 with quota := 5 },
            { TokenInfo.new "c" 0 with quota := 2 } ] := by decide
      rw [he] at hmem
      simp only [List.mem_cons, List.not_mem_nil, or_false] at hmem
      rcases hmem with rfl | rfl | rfl
      · left; rfl
      · right; left; rfl
      · right; right; rfl
    omega
  · decide
  · decide

/-- C6 witness: on the demo pool the theorem's characterization is realized —
draw 0 yields a quota-5 token, and an empty pool yields `none`. -/
theorem select_max_quota_witness :
    (∀ t, demoPool.select 0 = some t → t.quota = 5) ∧
    TokenPool.select { name := "empty", tokens := [] } 0 = none := by
  constructor
  · exact (select_max_quota demoPool 0).2.2.1 0
  · exact (select_max_quota { name := "empty", tokens := [] } 0).1.mpr
      (by decide)

/-! ## Scored rotation store lemmas -/

theorem usageLookup_update (key k : String) (f : KeyUsage → KeyUsage) (now : ℚ)
    (m : List (String × KeyUsage)) :
    usageLookup (usageUpdate key f now m) k =
      if k = key then some (f ((usageLookup m key).getD (KeyUsage.dflt now)))
      else usageLookup m k := by
  induction m with
  | nil =>
    simp only [usageUpdate, usageLookup]
    by_cases h : k = key
    · simp [h]
    · simp [h, Ne.symm h]
  | cons p rest ih =>
    obtain ⟨a, v⟩ := p
    simp only [usageUpdate, usageLookup]
    by_cases hak : a = key
    · subst hak
      by_cases hk : k = a
      · subst hk
        simp [usageLookup]
      · simp [usageLookup, hk, Ne.symm hk]
    · by_cases hk : k = a
      · subst hk
        simp [usageLookup, Ne.symm hak, hak]
      · simp [usageLookup, hak, Ne.symm hk, ih]

theorem clearFailedOne_failed (kh : String → String) (now : ℚ)
    (st : RotationStateData) (y tok : String) :
    (getUsage kh now (clearFailedOne kh now st y) tok).failed =
      if kh tok = kh y then false
      else (getUsage kh now st tok).failed := by
  simp only [getUsage, clearFailedOne, usageLookup_update]
  by_cases h : kh tok = kh y
  · simp [h]
  · simp [h]

theorem clearAllFailed_preserves (kh : String → String) (now : ℚ)
    (tokens : List String) :
    ∀ (st : RotationStateData) (tok : String),
      (getUsage kh now st tok).failed = false →
      (getUsage kh now (clearAllFailed kh now tokens st) tok).failed = false := by
  induction tokens with
  | nil =>
    intro st tok h
    exact h
  | cons y ys ih =>
    intro st tok h
    refine ih (clearFailedOne kh now st y) tok ?_
    rw [clearFailedOne_failed]
    by_cases hk : kh tok = kh y
    · simp [hk]
    · simp [hk, h]

theorem clearAllFailed_clears (kh : String → String) (now : ℚ)
    (tokens : List String) :
    ∀ (st : RotationStateData) (tok : String), tok ∈ tokens →
      (getUsage kh now (clearAllFailed kh now tokens st) tok).failed = false := by
  induction tokens with
  | nil =>
    intro st tok h
    cases h
  | cons y ys ih =>
    intro st tok h
    rcases List.mem_cons.mp h with rfl | hys
    · refine clearAllFailed_preserves kh now ys (clearFailedOne kh now st tok)
        tok ?_
      rw [clearFailedOne_failed]
      simp
    · exact ih (clearFailedOne kh now st y) tok hys

/-- C8: when the available set after the daily-reset check and the
`ensure_usage` pass is empty, `get_next_sso` self-heals by clearing every
token's `failed` flag and returning the first token if all tokens are marked
failed, and returns none otherwise; and a single token with `dailyLimit = 2`,
its usage recorded after each successful call, is exhausted on the third
call. -/
theorem rotation_store_exhaustion :
    (∀ (kh : String → String) (now : ℚ) (tokens : List String) (limit : Int)
        (st : RotationStateData),
      getAvailableTokens kh now tokens (rotationPostState kh now tokens st)
        limit = [] →
      (allFailed kh now tokens (rotationPostState kh now tokens st) = true →
        (getNextSso kh now tokens limit st).1 = tokens.head? ∧
        ∀ tok ∈ tokens,
          (getUsage kh now (getNextSso kh now tokens limit st).2 tok).failed
            = false) ∧
      (allFailed kh now tokens (rotationPostState kh now tokens st) = false →
        (getNextSso kh now tokens limit st).1 = none)) ∧
    (getNextSso (fun s => s) 1000 ["s"] 2 RotationStateData.dflt).1
      = some "s" ∧
    (getNextSso (fun s => s) 1001 ["s"] 2
      (recordUsage (fun s => s) 1000 "s"
        (getNextSso (fun s => s) 1000 ["s"] 2 RotationStateData.dflt).2)).1
      = some "s" ∧
    (getNextSso (fun s => s) 1002 ["s"] 2
      (recordUsage (fun s => s) 1001 "s"
        (getNextSso (fun s => s) 1001 ["s"] 2
          (recordUsage (fun s => s) 1000 "s"
            (getNextSso (fun s => s) 1000 ["s"] 2
              RotationStateData.dflt).2)).2)).1 = none := by
  refine ⟨?_, ?_, ?_, ?_⟩
  · intro kh now tokens limit st hav
    simp only [getNextSso, hav]
    constructor
    · intro hall
      rw [hall]
      simp only [if_true, true_and]
      exact fun tok htok =>
        clearAllFailed_clears kh now tokens _ tok htok
    · intro hnall
      rw [hnall]
      simp
  · norm_num [getNextSso, rotationPostState, checkDailyReset, ensureUsage,
      usageUpdate, getAvailableTokens, getUsage, usageLookup, pickBest,
      usageScore, timeFactor, recordUsage, KeyUsage.dflt,
      RotationStateData.dflt, RESET_INTERVAL_SECS, allFailed]
  · norm_num [getNextSso, rotationPostState, checkDailyReset, ensureUsage,
      usageUpdate, getAvailableTokens, getUsage, usageLookup, pickBest,
      usageScore, timeFactor, recordUsage, KeyUsage.dflt,
      RotationStateData.dflt, RESET_INTERVAL_SECS, allFailed]
  · norm_num [getNextSso, rotationPostState, checkDailyReset, ensureUsage,
      usageUpdate, getAvailableTokens, getUsage, usageLookup, pickBest,
      usageScore, timeFactor, recordUsage, KeyUsage.dflt,
      RotationStateData.dflt, RESET_INTERVAL_SECS, allFailed]

/-- C8 witness: a non-failed token at its daily limit yields none (not all
failed), while a failed-marked token triggers the self-heal branch and is
returned as the first token. -/
theorem rotation_store_exhaustion_witness :
    (getNextSso (fun s => s) 6 ["a"] 2 stuckState).1 = none ∧
    (getNextSso (fun s => s) 6 ["b"] 2 failedState).1 = some "b" := by
  constructor
  · exact (rotation_store_exhaustion.1 (fun s => s) 6 ["a"] 2 stuckState
      (by norm_num [rotationPostState, checkDailyReset, ensureUsage,
        usageUpdate, getAvailableTokens, getUsage, usageLookup, stuckState,
        RESET_INTERVAL_SECS])).2
      (by norm_num [rotationPostState, checkDailyReset, ensureUsage,
        usageUpdate, getUsage, usageLookup, stuckState, allFailed,
        RESET_INTERVAL_SECS])
  · exact ((rotation_store_exhaustion.1 (fun s => s) 6 ["b"] 2 failedState
      (by norm_num [rotationPostState, checkDailyReset, ensureUsage,
        usageUpdate, getAvailableTokens, getUsage, usageLookup, failedState,
        RESET_INTERVAL_SECS])).1
      (by norm_num [rotationPostState, checkDailyReset, ensureUsage,
        usageUpdate, getUsage, usageLookup, failedState, allFailed,
        RESET_INTERVAL_SECS])).1

end Grok2Api
